import Mathlib

/-!
Verification of the mafia-ai front-end (`src/static/js/game.js`) against its
natural-language specification.  The repository contains two successive
snapshots of `game.js` (an earlier one and a later one, concatenated in the
provided file); we embed the functions of both snapshots that the claims
refer to.  Pure string/DOM-building logic is embedded directly; DOM state
(the event-log container, player cards, the discussion-status panel) is
embedded as explicit record-passing state.
-/

namespace MafiaAI

/-! ## JavaScript string helpers -/

/-- One character of `escapeHtml`'s output.  The source implements
`escapeHtml` by assigning `div.textContent = text` and reading back
`div.innerHTML`; per the HTML serialization algorithm this escapes
the ampersand, the angle brackets and the no-break space, and leaves
every other character unchanged. -/
def escChar (c : Char) : List Char :=
  if c = '&' then ['&', 'a', 'm', 'p', ';']
  else if c = '<' then ['&', 'l', 't', ';']
  else if c = '>' then ['&', 'g', 't', ';']
  else if c = ' ' then ['&', 'n', 'b', 's', 'p', ';']
  else [c]

/-- `escapeHtml` on character lists. -/
def escapeHtmlL (l : List Char) : List Char :=
  (l.map escChar).flatten

/-- `escapeHtml` from game.js (both snapshots, identical). -/
def escapeHtml (s : String) : String :=
  ⟨escapeHtmlL s.data⟩

/-- ASCII model of JavaScript `String.prototype.toUpperCase`. -/
def jsToUpperCase (s : String) : String :=
  ⟨s.data.map Char.toUpper⟩

/-- JavaScript `x || d` for strings: the empty string is falsy. -/
def jsOr (s d : String) : String :=
  if s = "" then d else s

/-! ## `parseMarkdown` (later snapshot only)

```js
function parseMarkdown(text) {
    let escaped = escapeHtml(text);
    escaped = escaped.replace(/\*\*(.+?)\*\*/g, '<strong>$1</strong>');
    escaped = escaped.replace(/\*(.+?)\*/g, '<em>$1</em>');
    return escaped;
}
```

We model the two global lazy-regex replacements as left-to-right scanners.
A lazy `(.+?)` takes the shortest non-empty run of non-line-terminator
characters followed by the closing delimiter.  Each successful match
resumes scanning after the match; a failed attempt advances one
character. -/

/-- The characters JavaScript `.` does not match (line terminators,
restricted to the two ASCII ones). -/
def isLineTerm (c : Char) : Bool :=
  c = '\n' || c = '\r'

/-- Search for the lazy body of `\*\*(.+?)\*\*` in the characters that
follow the opening `**`: the shortest non-empty run of
non-line-terminator characters that is followed by `**`.  The returned
value carries the split equation, so callers (and the termination
argument) know exactly how the input decomposes. -/
def findBoldContent :
    (cs : List Char) → Option { p : List Char × List Char //
      cs = p.1 ++ '*' :: '*' :: p.2 ∧ p.1 ≠ [] } :=
  fun cs =>
    match cs with
    | [] => none
    | c :: cs' =>
      if isLineTerm c then none
      else
        match cs' with
        | '*' :: '*' :: rest => some ⟨([c], rest), by simp⟩
        | cs'' =>
          match findBoldContent cs'' with
          | some ⟨(content, rest), h⟩ =>
            some ⟨(c :: content, rest), by simp [h.1, h.2]⟩
          | none => none

/-- Search for the lazy body of `\*(.+?)\*` in the characters that follow
the opening `*`. -/
def findEmContent :
    (cs : List Char) → Option { p : List Char × List Char //
      cs = p.1 ++ '*' :: p.2 ∧ p.1 ≠ [] } :=
  fun cs =>
    match cs with
    | [] => none
    | c :: cs' =>
      if isLineTerm c then none
      else
        match cs' with
        | '*' :: rest => some ⟨([c], rest), by simp⟩
        | cs'' =>
          match findEmContent cs'' with
          | some ⟨(content, rest), h⟩ =>
            some ⟨(c :: content, rest), by simp [h.1, h.2]⟩
          | none => none

/-- The literal `<strong>` inserted by the first replacement. -/
def tokStrongOpen : List Char := ['<', 's', 't', 'r', 'o', 'n', 'g', '>']

/-- The literal `</strong>` inserted by the first replacement. -/
def tokStrongClose : List Char := ['<', '/', 's', 't', 'r', 'o', 'n', 'g', '>']

/-- The literal `<em>` inserted by the second replacement. -/
def tokEmOpen : List Char := ['<', 'e', 'm', '>']

/-- The literal `</em>` inserted by the second replacement. -/
def tokEmClose : List Char := ['<', '/', 'e', 'm', '>']

/-- The global replacement `.replace(/\*\*(.+?)\*\*/g, '<strong>$1</strong>')`
as a left-to-right scan. -/
def strongPass : List Char → List Char
  | [] => []
  | c :: cs =>
    if c = '*' then
      match cs with
      | [] => [c]
      | c' :: cs' =>
        if c' = '*' then
          match findBoldContent cs' with
          | some ⟨(content, rest), hsp⟩ =>
            tokStrongOpen ++ content ++ tokStrongClose ++ strongPass rest
          | none => c :: strongPass (c' :: cs')
        else c :: strongPass (c' :: cs')
    else c :: strongPass cs
termination_by l => l.length
decreasing_by
  all_goals simp_all
  all_goals omega

/-- The global replacement `.replace(/\*(.+?)\*/g, '<em>$1</em>')`
as a left-to-right scan. -/
def emPass : List Char → List Char
  | [] => []
  | c :: cs =>
    if c = '*' then
      match findEmContent cs with
      | some ⟨(content, rest), hsp⟩ =>
        tokEmOpen ++ content ++ tokEmClose ++ emPass rest
      | none => c :: emPass cs
    else c :: emPass cs
termination_by l => l.length
decreasing_by
  all_goals simp_all
  all_goals omega

/-- `parseMarkdown` on character lists: escape, then bold, then italic. -/
def parseMarkdownL (l : List Char) : List Char :=
  emPass (strongPass (escapeHtmlL l))

/-- `parseMarkdown` from the later snapshot of game.js. -/
def parseMarkdown (s : String) : String :=
  ⟨parseMarkdownL s.data⟩

/-- A character list with no raw angle brackets. -/
def noAngle (l : List Char) : Prop :=
  ∀ c ∈ l, c ≠ '<' ∧ c ≠ '>'

/-- Character lists that consist of angle-free text interleaved with
intact `<strong>`/`</strong>` tags (the shape of `strongPass`'s output
on escaped input). -/
inductive SafeS : List Char → Prop where
  | nil : SafeS []
  | plain (c : Char) (rest : List Char) :
      c ≠ '<' → c ≠ '>' → SafeS rest → SafeS (c :: rest)
  | so (rest : List Char) : SafeS rest → SafeS (tokStrongOpen ++ rest)
  | sc (rest : List Char) : SafeS rest → SafeS (tokStrongClose ++ rest)

/-- Character lists that consist of angle-free text interleaved with
intact `<strong>`, `</strong>`, `<em>`, `</em>` tags: no other markup
can be read out of such a list. -/
inductive OnlyMarkupTags : List Char → Prop where
  | nil : OnlyMarkupTags []
  | plain (c : Char) (rest : List Char) :
      c ≠ '<' → c ≠ '>' → OnlyMarkupTags rest → OnlyMarkupTags (c :: rest)
  | so (rest : List Char) : OnlyMarkupTags rest → OnlyMarkupTags (tokStrongOpen ++ rest)
  | sc (rest : List Char) : OnlyMarkupTags rest → OnlyMarkupTags (tokStrongClose ++ rest)
  | eo (rest : List Char) : OnlyMarkupTags rest → OnlyMarkupTags (tokEmOpen ++ rest)
  | ec (rest : List Char) : OnlyMarkupTags rest → OnlyMarkupTags (tokEmClose ++ rest)

/-! ## Events and the unified event log -/

/-- One entry of `game_state.events` as the front end consumes it.
`turnType` models `event.metadata && event.metadata.turn_type`. -/
structure GameEvent where
  id : Nat
  type : String
  phase : String
  day : Nat
  player : Option String
  message : String
  visibility : String
  turnType : Option String
deriving DecidableEq

/-- The per-player record stored in the `playerMap` object built by
`updateEventLog` (`team` and `role`, with `role: player.role || 'Unknown'`). -/
structure PlayerInfo where
  team : String
  role : String
deriving DecidableEq

/-- One entry of `game_state.players`.  An absent/falsy `role` is modelled
as the empty string. -/
structure Player where
  name : String
  role : String
  team : String
  alive : Bool
  model : String
  has_context : Bool
  has_scratchpad : Bool
deriving DecidableEq

/-- The `playerMap` object of `updateEventLog`. -/
def buildPlayerMap (players : List Player) : List (String × PlayerInfo) :=
  players.map (fun p => (p.name, { team := p.team, role := jsOr p.role ("Unknown") }))

/-- Property lookup on the `playerMap` object: a later assignment to the
same key wins, and a miss (`|| {}`) yields a record whose fields compare
unequal to every label, modelled by empty strings. -/
def lookupPlayerInfo (pm : List (String × PlayerInfo)) (name : String) : PlayerInfo :=
  match (pm.filter (fun q => q.1 == name)).getLast? with
  | some q => q.2
  | none => { team := "", role := "" }

/-- `getPlayerNameClass` from the later snapshot (renamed: Lean identifier). -/
def getPlayerNameCls (pi : PlayerInfo) : String :=
  "player-name"
    ++ (if pi.team == "mafia" then " mafia"
        else if pi.team == "town" then " town"
        else if pi.team == "third_party" then " third_party"
        else "")

/-- `getVisibilityLabel` from game.js.  The argument is always a string in
this embedding, so the `typeof` guard's `'PRIVATE'` fallback is not
reachable here. -/
def getVisibilityLabel (visibility : String) : String :=
  if visibility == "mafia" then "MAFIA ONLY"
  else if visibility == "sheriff" then "SHERIFF ONLY"
  else if visibility == "doctor" then "DOCTOR ONLY"
  else if visibility == "vigilante" then "VIGILANTE ONLY"
  else jsToUpperCase visibility

/-- The `private-event` test of `createEventElement`:
`event.visibility !== 'all' && event.visibility !== 'public'`. -/
def isPrivateVisibility (v : String) : Bool :=
  !(v == "all") && !(v == "public")

/-- The `<div>` built by `createEventElement`: its class list, its two
`data-` attributes and its serialized `innerHTML`. -/
structure EventDiv where
  classes : List String
  dataEventId : Nat
  dataVisibility : String
  innerHTML : String
deriving DecidableEq

/-- `createEventElement` from the later snapshot of game.js. -/
def createEventElement (e : GameEvent) (pm : List (String × PlayerInfo)) : EventDiv :=
  let priv := isPrivateVisibility e.visibility
  let classes :=
    ["event-entry", "event-" ++ e.type]
      ++ (if priv then ["private-event", "visibility-" ++ e.visibility] else [])
  let phaseLabel :=
    "<span class=\"event-phase\">" ++ jsToUpperCase e.phase ++ " "
      ++ toString e.day ++ "</span>"
  let content :=
    if ["discussion", "vote", "mafia_chat", "role_action"].contains e.type then
      let pi := lookupPlayerInfo pm (e.player.getD (""))
      let nameCls := getPlayerNameCls pi
      let roleDisplay := jsOr pi.role ("Unknown")
      let turnIcon :=
        if e.type == "discussion" then
          match e.turnType with
          | some t =>
            if t == "interrupt" then
              "<span class=\"turn-icon interrupt\" title=\"Interrupt\">⚡</span>"
            else if t == "respond" then
              "<span class=\"turn-icon respond\" title=\"Response\">↩️</span>"
            else ""
          | none => ""
        else ""
      phaseLabel
        ++ (match e.player with
            | some p =>
              if p == "" then ""
              else
                turnIcon ++ "<span class=\"" ++ nameCls ++ "\">" ++ escapeHtml p
                  ++ " (" ++ escapeHtml roleDisplay ++ "):</span>"
            | none => "")
        ++ "<span class=\"event-message\">" ++ parseMarkdown e.message ++ "</span>"
        ++ (if priv then
              "<span class=\"visibility-badge\">" ++ getVisibilityLabel e.visibility
                ++ "</span>"
            else "")
    else
      phaseLabel ++ "<span class=\"event-message\">" ++ escapeHtml e.message ++ "</span>"
  { classes := classes, dataEventId := e.id, dataVisibility := e.visibility,
    innerHTML := content }

/-- The event-log container's DOM state together with the module-level
`displayedEventCount` counter: the appended event `<div>`s, whether the
`No events yet.` placeholder `<p>` is present, and the counter. -/
structure EventLogState where
  entries : List EventDiv
  emptyMsg : Bool
  displayedEventCount : Nat
deriving DecidableEq

/-- `updateEventLog`, identical in both snapshots up to the renderer used
for a single event, which is therefore a parameter.  The empty-events
branch installs the placeholder exactly when the container has no event
entries (its children are then `[]` or just the placeholder `<p>`); the
shrink branch clears the container; otherwise the events from index
`displayedEventCount` on are rendered and appended in order. -/
def updateEventLogWith (render : GameEvent → List (String × PlayerInfo) → EventDiv)
    (events : List GameEvent) (players : List Player) (s : EventLogState) :
    EventLogState :=
  if events.isEmpty then
    { s with
      emptyMsg := if s.entries.isEmpty then true else s.emptyMsg,
      displayedEventCount := 0 }
  else
    let s1 :=
      if events.length < s.displayedEventCount then
        { entries := [], emptyMsg := false, displayedEventCount := 0 }
      else s
    let pm := buildPlayerMap players
    { entries := s1.entries ++ (events.drop s1.displayedEventCount).map (fun e => render e pm),
      emptyMsg := false,
      displayedEventCount := events.length }

/-- `updateEventLog` of the later snapshot (renders with `createEventElement`). -/
def updateEventLog (events : List GameEvent) (players : List Player)
    (s : EventLogState) : EventLogState :=
  updateEventLogWith createEventElement events players s

/-! ## `updatePlayers` (later snapshot) -/

/-- The module-level state of the later snapshot that `updatePlayers`
reads: human-player bookkeeping, the reveal flag, the current phase/step
and the waiting/pending trackers. -/
structure HumanEnv where
  humanPlayerName : Option String
  isRevealAll : Bool
  humanAlive : Bool
  isGameOver : Bool
  currentPhase : String
  currentStep : Option String
  humanTeam : Option String
  humanRole : Option String
  waitingPlayer : Option String
  pendingPlayers : List String
deriving DecidableEq

/-- JavaScript `os?.startsWith(p)` coerced to boolean. -/
def jsStartsWith (os : Option String) (p : String) : Bool :=
  match os with
  | some s => s.startsWith p
  | none => false

/-- Apostrophe character (codepoint 39). -/
def squote : Char := Char.ofNat 39

/-- `.replace(/'/g, "\\'")` applied to the player name in the inline
`onclick` handlers. -/
def jsEscapeQuotes (s : String) : String :=
  ⟨(s.data.map (fun c => if c = squote then ['\\', squote] else [c])).flatten⟩

/-- Everything observable about one player card produced by the later
snapshot's `updatePlayers`. -/
structure PlayerCard where
  className : String
  youIndicator : Bool
  waitingIndicator : Bool
  roleDisplay : String
  modelName : String
  onclickName : String
  contextEnabled : Bool
  contextTitle : String
  scratchpadEnabled : Bool
  scratchpadTitle : String
deriving DecidableEq

/-- The card built for one player by the later snapshot's `updatePlayers`. -/
def buildPlayerCard (env : HumanEnv) (p : Player) : PlayerCard :=
  let isRoleHidden := p.role == "???"
  let cls := "player-card"
    ++ (if !p.alive then " dead"
        else if isRoleHidden then " unknown-role"
        else if p.team == "mafia" then " mafia"
        else if p.team == "town" then " town"
        else if p.team == "third_party" then " third_party"
        else "")
  let isWaitingRaw := env.pendingPlayers.contains p.name || env.waitingPlayer == some p.name
  let shouldShowWaiting :=
    if env.humanPlayerName.isSome && !env.isRevealAll && env.humanAlive && !env.isGameOver then
      if env.currentPhase == "night" then
        if env.humanTeam == some ("mafia") then
          if jsStartsWith env.currentStep ("mafia_") then isWaitingRaw else false
        else if env.humanRole == some ("Doctor") || env.humanRole == some ("Sheriff")
            || env.humanRole == some ("Vigilante") then
          if env.humanPlayerName == some p.name then isWaitingRaw else false
        else false
      else isWaitingRaw
    else isWaitingRaw
  let isOwnCard := env.humanPlayerName == some p.name
  let canShowContextInfo := !isRoleHidden || isOwnCard
  let showContextEnabled := canShowContextInfo && p.has_context
  let showScratchpadEnabled := canShowContextInfo && p.has_scratchpad
  { className := cls
    youIndicator := isOwnCard
    waitingIndicator := shouldShowWaiting
    roleDisplay := jsOr p.role ("Unknown")
    modelName := p.model
    onclickName := jsEscapeQuotes (escapeHtml p.name)
    contextEnabled := showContextEnabled
    contextTitle := if showContextEnabled then "View LLM context" else "No context available yet"
    scratchpadEnabled := showScratchpadEnabled
    scratchpadTitle := if showScratchpadEnabled then "View scratchpad"
                       else "No scratchpad notes yet" }

/-- `updatePlayers` of the later snapshot: the container is cleared and one
card is appended per player, in order. -/
def updatePlayers (env : HumanEnv) (players : List Player) : List PlayerCard :=
  players.map (buildPlayerCard env)

/-! ## `updateDiscussionStatus` (earlier snapshot) -/

/-- A `discussion_status` push message. -/
structure DiscussionStatus where
  action : String
  waiting_player : Option String
  message_count : Nat
  max_messages : Nat
  interrupting_players : Option (List String)
  passing_players : Option (List String)
  is_interrupt : Bool
deriving DecidableEq

/-- The discussion-status panel plus the module-level trackers
(`waitingPlayer`, `interruptingPlayers`, `passingPlayers`) of the earlier
snapshot.  `passingElExists` / `interruptModeElExists` model the
presence checks on the optional DOM elements. -/
structure DiscussionUI where
  panelHidden : Bool
  actionText : String
  actionPaused : Bool
  waitingText : String
  waitingHighlight : Bool
  waitingPlayer : Option String
  messagesText : String
  interruptingText : String
  interruptingHasItems : Bool
  interruptingPlayers : List String
  passingElExists : Bool
  passingText : String
  passingHasItems : Bool
  passingPlayers : List String
  interruptModeElExists : Bool
  interruptModeText : String
  interruptModeOn : Bool
deriving DecidableEq

/-- The `actionLabels` lookup with its `|| status.action` fallback. -/
def actionLabel (a : String) : String :=
  if a == "discussion_start" then "Starting discussion"
  else if a == "interrupt_polling" then "Checking for interrupts"
  else if a == "waiting_interrupt" then "Polling interrupt"
  else if a == "waiting_message" then "Getting message"
  else if a == "discussion_paused" then "PAUSED"
  else a

/-- JavaScript truthiness of an optional string. -/
def optStrTruthy (o : Option String) : Bool :=
  match o with
  | some s => !(s == "")
  | none => false

/-- `Array.prototype.join(', ')`. -/
def jsJoinComma (l : List String) : String :=
  String.intercalate (", ") l

/-- `updateDiscussionStatus` from the earlier snapshot.  On
`discussion_end` it hides the panel and clears the three trackers (the
follow-up `loadGameState()` re-render does not touch these fields);
otherwise it shows the panel and updates every field from the status. -/
def updateDiscussionStatus (st : DiscussionStatus) (ui : DiscussionUI) : DiscussionUI :=
  if st.action == "discussion_end" then
    { ui with panelHidden := true, waitingPlayer := none,
              interruptingPlayers := [], passingPlayers := [] }
  else
    let ui := { ui with panelHidden := false,
                        actionText := actionLabel st.action,
                        actionPaused := st.action == "discussion_paused" }
    let ui :=
      if optStrTruthy st.waiting_player then
        { ui with waitingText := st.waiting_player.getD (""),
                  waitingHighlight := true,
                  waitingPlayer := st.waiting_player }
      else
        { ui with waitingText := "-", waitingHighlight := false, waitingPlayer := none }
    let ui := { ui with messagesText :=
                  toString st.message_count ++ " / " ++ toString st.max_messages }
    let ui :=
      match st.interrupting_players with
      | some l =>
        if 0 < l.length then
          { ui with interruptingPlayers := l, interruptingText := jsJoinComma l,
                    interruptingHasItems := true }
        else
          { ui with interruptingPlayers := [], interruptingText := "-",
                    interruptingHasItems := false }
      | none =>
        { ui with interruptingPlayers := [], interruptingText := "-",
                  interruptingHasItems := false }
    let ui :=
      if ui.passingElExists then
        match st.passing_players with
        | some l =>
          if 0 < l.length then
            { ui with passingPlayers := l, passingText := jsJoinComma l,
                      passingHasItems := true }
          else
            { ui with passingPlayers := [], passingText := "-", passingHasItems := false }
        | none =>
          { ui with passingPlayers := [], passingText := "-", passingHasItems := false }
      else
        match st.passing_players with
        | some l => { ui with passingPlayers := l }
        | none => ui
    if ui.interruptModeElExists then
      if st.is_interrupt then
        { ui with interruptModeText := "Yes (interrupt)", interruptModeOn := true }
      else
        { ui with interruptModeText := "No (scheduled turn)", interruptModeOn := false }
    else ui

/-! ## `updatePlayerIndicators` (earlier snapshot) -/

/-- The three module-level trackers the earlier snapshot's
`updatePlayerIndicators` reads. -/
structure IndicatorEnv where
  waitingPlayer : Option String
  interruptingPlayers : List String
  passingPlayers : List String
deriving DecidableEq

/-- The indicator-related observable state of one player card: the three
CSS classes and the three indicator `<span>`s. -/
structure CardIndicators where
  waitingCls : Bool
  interruptingCls : Bool
  passingCls : Bool
  waitingInd : Bool
  interruptInd : Bool
  passInd : Bool
deriving DecidableEq

/-- The body of the earlier snapshot's `updatePlayerIndicators` loop for a
single card: adds the missing indicator of the highest-priority
applicable kind and removes every other one, so the result does not
depend on the card's previous indicators. -/
def updateCardIndicators (env : IndicatorEnv) (playerName : String)
    (_old : CardIndicators) : CardIndicators :=
  if env.waitingPlayer == some playerName then
    { waitingCls := true, waitingInd := true,
      interruptingCls := false, interruptInd := false,
      passingCls := false, passInd := false }
  else if env.interruptingPlayers.contains playerName then
    { waitingCls := false, waitingInd := false,
      interruptingCls := true, interruptInd := true,
      passingCls := false, passInd := false }
  else if env.passingPlayers.contains playerName then
    { waitingCls := false, waitingInd := false,
      interruptingCls := false, interruptInd := false,
      passingCls := true, passInd := true }
  else
    { waitingCls := false, waitingInd := false,
      interruptingCls := false, interruptInd := false,
      passingCls := false, passInd := false }

/-- `updatePlayerIndicators` from the earlier snapshot, over the cards in
the players list (keyed by the name text of each card). -/
def updatePlayerIndicators (env : IndicatorEnv)
    (cards : List (String × CardIndicators)) : List (String × CardIndicators) :=
  cards.map (fun c => (c.1, updateCardIndicators env c.1 c.2))

/-! ## `updatePlayerPendingStatus` (later snapshot) -/

/-- `Set.prototype.add` on the insertion-ordered `pendingPlayers` set. -/
def setAdd (x : String) (s : List String) : List String :=
  if s.contains x then s else s ++ [x]

/-- `Set.prototype.delete` on the `pendingPlayers` set. -/
def setDelete (x : String) (s : List String) : List String :=
  s.filter (fun y => !(y == x))

/-- `updatePlayerPendingStatus` from the later snapshot (its trailing
`updatePlayerIndicators()` repaint does not change the set). -/
def updatePlayerPendingStatus (playerName status : String)
    (pendingPlayers : List String) : List String :=
  if status == "pending" then setAdd playerName pendingPlayers
  else if status == "complete" then setDelete playerName pendingPlayers
  else pendingPlayers

/-! ## `handleStart` (both snapshots, identical) -/

/-- The start/pause button state `handleStart` manipulates. -/
structure StartUI where
  startDisabled : Bool
  startText : String
  pauseDisabled : Bool
deriving DecidableEq

/-- The module-level client state `handleStart` reads and writes. -/
structure ClientState where
  currentGameId : Option String
  gameStarted : Bool
  ui : StartUI
deriving DecidableEq

/-- Outcome of the awaited `POST /game/:id/start`: 2xx, an HTTP error
payload, or a thrown network error. -/
inductive StartOutcome where
  | ok
  | httpError
  | networkError
deriving DecidableEq

/-- `handleStart` from game.js.  The second component counts the start
requests issued by this invocation. -/
def handleStart (st : ClientState) (outcome : StartOutcome) : ClientState × Nat :=
  if st.gameStarted || st.currentGameId.isNone then (st, 0)
  else
    let ui1 := { st.ui with startDisabled := true, startText := "Starting..." }
    match outcome with
    | .ok =>
      ({ st with gameStarted := true,
                 ui := { ui1 with startText := "Running", pauseDisabled := false } }, 1)
    | .httpError =>
      ({ st with ui := { ui1 with startDisabled := false, startText := "Start Game" } }, 1)
    | .networkError =>
      ({ st with ui := { ui1 with startDisabled := false, startText := "Start Game" } }, 1)

/-! ## The game-status line of `updateDisplay` (both snapshots) -/

/-- The `game-status` text set by the earlier snapshot's `updateDisplay`. -/
def updateDisplayStatusV1 (gameOver : Bool) (winner : String)
    (gameStarted isPaused : Bool) : String :=
  if gameOver then
    "Game Over! " ++ (if winner == "mafia" then "Mafia" else "Town") ++ " wins!"
  else if gameStarted then
    if isPaused then "Game paused" else "Game running"
  else "Ready to start"

/-- The `game-status` text set by the later snapshot's `updateDisplay`. -/
def updateDisplayStatusV2 (gameOver : Bool) (winner : String)
    (gameStarted isPaused : Bool) : String :=
  if gameOver then
    let winnerText :=
      if winner == "mafia" then "Mafia"
      else if winner == "jester" then "Jester"
      else "Town"
    "Game Over! " ++ winnerText ++ " wins!"
  else if gameStarted then
    if isPaused then "Game paused" else "Game running"
  else "Ready to start"

/-! ## Spec-modelled backend components

The orchestration backend (EventLog/VisibilityFilter and the
TurnScheduler) is code of this repository that is not among the provided
files; the spec describes its contract, so the definitions below are
modelled from the spec's words. -/

/-- A viewer of the event log, for the spec's `VisibilityFilter`. -/
structure Viewer where
  name : String
  team : String
  role : String
deriving DecidableEq

/-- Modelled from the spec: the backend `VisibilityFilter` is not among
the provided files.  §4.3: "VisibilityFilter(event, viewer) returns
visible iff scope is `all`/`public`, or viewer's role/team matches the
scope, or viewer is the single named recipient" (a single-recipient
scope is the recipient's name). -/
def VisibilityFilter (scope : String) (v : Viewer) : Bool :=
  scope == "all" || scope == "public"
    || v.team == scope || v.role == scope || v.name == scope

/-- Modelled from the spec: a pending interrupt bid of the TurnScheduler
(§3 TurnRequest): participant id, priority score, arrival order. -/
structure TurnBid where
  participant : String
  priority : Nat
  arrival : Nat
deriving DecidableEq

/-- Modelled from the spec: bid comparison — "higher priority wins; equal
priority resolved by arrival order (FIFO)". -/
def bidBeats (a b : TurnBid) : Bool :=
  b.priority < a.priority || (a.priority == b.priority && a.arrival < b.arrival)

/-- Modelled from the spec: the winner among a list of bids under
`bidBeats` (first listed wins any remaining tie). -/
def bestBid : List TurnBid → Option TurnBid
  | [] => none
  | b :: bs =>
    match bestBid bs with
    | none => some b
    | some c => if bidBeats c b then some c else some b

/-- Modelled from the spec: the scheduled turn currently in progress
(participant and the priority it was scheduled at). -/
structure ScheduledTurn where
  participant : String
  priority : Nat
deriving DecidableEq

/-- Modelled from the spec: the TurnScheduler's state while a scheduled
turn is in progress — the in-flight turn, the participant previously
queued for the next slot, the interrupt bids that arrived concurrently,
and the log of completed agent calls. -/
structure SchedulerState where
  current : ScheduledTurn
  queuedNext : ScheduledTurn
  bids : List TurnBid
  finished : List (String × String)
deriving DecidableEq

/-- Modelled from the spec: the bids that preempt the current turn — "any
bid exceeding the priority of the currently scheduled turn preempts it"
(§4.2.2). -/
def preemptingBids (s : SchedulerState) : List TurnBid :=
  s.bids.filter (fun b => decide (s.current.priority < b.priority))

/-- Modelled from the spec: "the *next* turn slot goes to the highest
bidder, tie-broken by arrival order"; with no preempting bid the
previously queued participant keeps the slot. -/
def selectNextTurn (s : SchedulerState) : ScheduledTurn :=
  match bestBid (preemptingBids s) with
  | some b => { participant := b.participant, priority := b.priority }
  | none => s.queuedNext

/-- Modelled from the spec: "the current turn is allowed to finish its
in-flight agent call (no hard cancellation of a call already returned)"
— the only step out of a dispatched turn records the completed call's
result and only then hands the slot to `selectNextTurn`. -/
def completeCurrentTurn (s : SchedulerState) (result : String) : SchedulerState :=
  { s with
    finished := s.finished ++ [(s.current.participant, result)],
    current := selectNextTurn s }

/-! ## Theorems -/

/-- C10: `updatePlayerPendingStatus` adds the player exactly on status
`'pending'`, removes it exactly on status `'complete'`, leaves the set
unchanged on any other status, and for a player not initially pending a
`'pending'` call followed by a `'complete'` call restores the set. -/
theorem setAdd_mem (n m : String) (s : List String) :
    m ∈ setAdd n s ↔ (m ∈ s ∨ m = n) := by
  by_cases hc : s.contains n
  · have hn : n ∈ s := by simpa using hc
    simp only [setAdd, hc, if_true]
    exact ⟨Or.inl, fun h => h.elim id (fun e => e ▸ hn)⟩
  · rw [setAdd, if_neg hc]
    simp

theorem setDelete_mem (n m : String) (s : List String) :
    m ∈ setDelete n s ↔ (m ∈ s ∧ m ≠ n) := by
  simp [setDelete, List.mem_filter]

theorem setDelete_setAdd (n : String) (s : List String) (hn : n ∉ s) :
    setDelete n (setAdd n s) = s := by
  have hc : s.contains n = false := by simpa using hn
  simp only [setAdd, hc, Bool.false_eq_true, if_false, setDelete, List.filter_append]
  have h1 : s.filter (fun y => !(y == n)) = s :=
    List.filter_eq_self.mpr (fun a ha => by
      simp only [Bool.not_eq_eq_eq_not, Bool.not_true, beq_eq_false_iff_ne, ne_eq]
      exact fun e => hn (e ▸ ha))
  simp [h1]

/-- C10: `updatePlayerPendingStatus` adds the player exactly on status
`'pending'`, removes it exactly on status `'complete'`, leaves the set
unchanged on any other status, and for a player not initially pending a
`'pending'` call followed by a `'complete'` call restores the set. -/
theorem c10_updatePlayerPendingStatus_spec (n m : String) (s : List String) :
    (m ∈ updatePlayerPendingStatus n ("pending") s ↔ (m ∈ s ∨ m = n))
    ∧ (m ∈ updatePlayerPendingStatus n ("complete") s ↔ (m ∈ s ∧ m ≠ n))
    ∧ (∀ st : String, st ≠ "pending" → st ≠ "complete" →
        updatePlayerPendingStatus n st s = s)
    ∧ (n ∉ s →
        updatePlayerPendingStatus n ("complete")
          (updatePlayerPendingStatus n ("pending") s) = s) := by
  refine ⟨?_, ?_, ?_, ?_⟩
  · simpa [updatePlayerPendingStatus] using setAdd_mem n m s
  · simpa [updatePlayerPendingStatus] using setDelete_mem n m s
  · intro st h1 h2
    simp [updatePlayerPendingStatus, h1, h2]
  · intro hn
    simpa [updatePlayerPendingStatus] using setDelete_setAdd n s hn

/-- Witness for C10 at a concrete player and set. -/
theorem c10_witness :
    ("alice" ∉ (["bob"] : List String)) ∧
    updatePlayerPendingStatus ("alice") ("complete")
      (updatePlayerPendingStatus ("alice") ("pending") ["bob"]) = ["bob"] :=
  ⟨by decide, (c10_updatePlayerPendingStatus_spec ("alice") ("alice") ["bob"]).2.2.2
    (by decide)⟩

/-- C7: once the client has marked the game started, `handleStart` returns
immediately: the state is unchanged and no start request is issued; any
single invocation issues at most one start request, and a successful
start marks the game started (so later invocations send nothing). -/
theorem c7_handleStart_guard (st : ClientState) (o : StartOutcome) :
    (st.gameStarted = true → handleStart st o = (st, 0))
    ∧ (handleStart st o).2 ≤ 1
    ∧ (st.gameStarted = false → st.currentGameId.isNone = false →
        o = StartOutcome.ok →
        (handleStart st o).1.gameStarted = true ∧ (handleStart st o).2 = 1) := by
  refine ⟨fun h => by simp [handleStart, h], ?_, ?_⟩
  · unfold handleStart
    split
    · simp
    · cases o <;> simp
  · intro h1 h2 h3
    subst h3
    simp [handleStart, h1, h2]

/-- Witness for C7 at a concrete already-started client state. -/
theorem c7_witness :
    handleStart
        { currentGameId := some ("g1"), gameStarted := true,
          ui := { startDisabled := true, startText := "Running",
                  pauseDisabled := false } }
        StartOutcome.ok
      = ({ currentGameId := some ("g1"), gameStarted := true,
           ui := { startDisabled := true, startText := "Running",
                   pauseDisabled := false } }, 0) :=
  (c7_handleStart_guard _ _).1 rfl

/-- C6 counterexample: for a third-party winner (`'jester'`) the two
snapshots of `updateDisplay` disagree on the game-over status text — the
earlier one reports `Town wins!`, the later one `Jester wins!`. -/
theorem c6_counterexample :
    updateDisplayStatusV1 true ("jester") true false
      ≠ updateDisplayStatusV2 true ("jester") true false := by
  decide

/-- C6 amended: the two snapshots of `updateDisplay` produce the same
game-over status text, naming the same winning side, for every winner
value other than `'jester'` (and agree on all non-game-over branches). -/
theorem c6_amended (gameOver gameStarted isPaused : Bool) (winner : String)
    (h : winner ≠ "jester") :
    updateDisplayStatusV1 gameOver winner gameStarted isPaused
      = updateDisplayStatusV2 gameOver winner gameStarted isPaused := by
  by_cases hm : winner = "mafia" <;>
    simp [updateDisplayStatusV1, updateDisplayStatusV2, hm, h]

/-- Witness for the amended C6 at winner `'mafia'`. -/
theorem c6_amended_witness :
    updateDisplayStatusV1 true ("mafia") true false
      = updateDisplayStatusV2 true ("mafia") true false :=
  c6_amended true true false ("mafia") (by decide)

/-- C5: processing a `discussion_status` update whose action is
`'discussion_end'` hides the status panel and resets the tracked waiting
player, interrupting players and passing players to empty. -/
theorem c5_discussion_end_clears (st : DiscussionStatus) (ui : DiscussionUI)
    (h : st.action = "discussion_end") :
    (updateDiscussionStatus st ui).panelHidden = true
    ∧ (updateDiscussionStatus st ui).waitingPlayer = none
    ∧ (updateDiscussionStatus st ui).interruptingPlayers = []
    ∧ (updateDiscussionStatus st ui).passingPlayers = [] := by
  simp [updateDiscussionStatus, h]

/-- Witness for C5 at a concrete status message and panel state. -/
theorem c5_witness :
    (updateDiscussionStatus
        { action := "discussion_end", waiting_player := some ("Bob"),
          message_count := 3, max_messages := 10,
          interrupting_players := some [("Carol")],
          passing_players := some [("Dan")], is_interrupt := true }
        { panelHidden := false, actionText := "Getting message",
          actionPaused := false, waitingText := "Bob", waitingHighlight := true,
          waitingPlayer := some ("Bob"), messagesText := "3 / 10",
          interruptingText := "Carol", interruptingHasItems := true,
          interruptingPlayers := [("Carol")], passingElExists := true,
          passingText := "Dan", passingHasItems := true,
          passingPlayers := [("Dan")], interruptModeElExists := true,
          interruptModeText := "Yes (interrupt)", interruptModeOn := true }).panelHidden
       = true
    ∧ (updateDiscussionStatus
        { action := "discussion_end", waiting_player := some ("Bob"),
          message_count := 3, max_messages := 10,
          interrupting_players := some [("Carol")],
          passing_players := some [("Dan")], is_interrupt := true }
        { panelHidden := false, actionText := "Getting message",
          actionPaused := false, waitingText := "Bob", waitingHighlight := true,
          waitingPlayer := some ("Bob"), messagesText := "3 / 10",
          interruptingText := "Carol", interruptingHasItems := true,
          interruptingPlayers := [("Carol")], passingElExists := true,
          passingText := "Dan", passingHasItems := true,
          passingPlayers := [("Dan")], interruptModeElExists := true,
          interruptModeText := "Yes (interrupt)", interruptModeOn := true }).waitingPlayer
       = none :=
  ⟨(c5_discussion_end_clears _ _ rfl).1, (c5_discussion_end_clears _ _ rfl).2.1⟩

/-- C9: after `updatePlayerIndicators`, every card shows at most one of
the three turn indicators, selected by the fixed precedence waiting over
interrupting over passing. -/
theorem c9_indicator_precedence (env : IndicatorEnv)
    (cards : List (String × CardIndicators)) (nc : String × CardIndicators)
    (h : nc ∈ updatePlayerIndicators env cards) :
    ((if nc.2.waitingInd then 1 else 0) + (if nc.2.interruptInd then 1 else 0)
        + (if nc.2.passInd then 1 else 0) ≤ 1)
    ∧ nc.2.waitingInd = (env.waitingPlayer == some nc.1)
    ∧ nc.2.interruptInd
        = (!(env.waitingPlayer == some nc.1) && env.interruptingPlayers.contains nc.1)
    ∧ nc.2.passInd
        = (!(env.waitingPlayer == some nc.1) && !(env.interruptingPlayers.contains nc.1)
            && env.passingPlayers.contains nc.1) := by
  simp only [updatePlayerIndicators, List.mem_map] at h
  obtain ⟨a, _, rfl⟩ := h
  unfold updateCardIndicators
  by_cases h1 : env.waitingPlayer == some a.1 <;>
    by_cases h2 : env.interruptingPlayers.contains a.1 <;>
      by_cases h3 : env.passingPlayers.contains a.1 <;>
        simp_all

/-- Witness for C9: a card for a player who both wants to interrupt and
wants to pass shows only the interrupt indicator. -/
theorem c9_witness :
    (let env : IndicatorEnv :=
      { waitingPlayer := some ("alice"), interruptingPlayers := [("bob")],
        passingPlayers := [("bob"), ("carol")] }
     let nc := (("bob"), updateCardIndicators env ("bob")
        { waitingCls := true, interruptingCls := true, passingCls := true,
          waitingInd := true, interruptInd := true, passInd := true })
     ((if nc.2.waitingInd then 1 else 0) + (if nc.2.interruptInd then 1 else 0)
        + (if nc.2.passInd then 1 else 0) ≤ 1)
     ∧ nc.2.waitingInd = (env.waitingPlayer == some nc.1)
     ∧ nc.2.interruptInd
        = (!(env.waitingPlayer == some nc.1) && env.interruptingPlayers.contains nc.1)
     ∧ nc.2.passInd
        = (!(env.waitingPlayer == some nc.1) && !(env.interruptingPlayers.contains nc.1)
            && env.passingPlayers.contains nc.1)) :=
  c9_indicator_precedence _
    [(("bob"), ({ waitingCls := true, interruptingCls := true,
                  passingCls := true, waitingInd := true,
                  interruptInd := true, passInd := true } : CardIndicators))] _
    (by simp [updatePlayerIndicators])

/-- C2: a player card rendered with role `'???'` for someone other than
the viewer's own player has both the Context and the Scratchpad buttons
disabled, and the rendered card does not depend on that player's
`has_context`/`has_scratchpad` flags at all. -/
theorem c2_hidden_role_no_leak (env : HumanEnv) (p q : Player)
    (hrole : p.role = "???") (hown : env.humanPlayerName ≠ some p.name)
    (hname : q.name = p.name) (hrole2 : q.role = p.role) (hteam : q.team = p.team)
    (halive : q.alive = p.alive) (hmodel : q.model = p.model) :
    (buildPlayerCard env p).contextEnabled = false
    ∧ (buildPlayerCard env p).scratchpadEnabled = false
    ∧ buildPlayerCard env q = buildPlayerCard env p := by
  have hbe : (env.humanPlayerName == some p.name) = false := by
    simpa using hown
  simp [buildPlayerCard, hname, hrole2, hteam, halive, hmodel, hrole, hbe]

/-- Witness for C2: two renderings of a hidden-role player that differ
only in the private-artifact flags are identical, with both buttons
disabled. -/
theorem c2_witness :
    (buildPlayerCard
        { humanPlayerName := some ("me"), isRevealAll := false, humanAlive := true,
          isGameOver := false, currentPhase := "day", currentStep := none,
          humanTeam := some ("town"), humanRole := some ("Villager"),
          waitingPlayer := none, pendingPlayers := [] }
        { name := "bot1", role := "???", team := "town", alive := true,
          model := "gpt", has_context := true, has_scratchpad := true }).contextEnabled
      = false
    ∧ (buildPlayerCard
        { humanPlayerName := some ("me"), isRevealAll := false, humanAlive := true,
          isGameOver := false, currentPhase := "day", currentStep := none,
          humanTeam := some ("town"), humanRole := some ("Villager"),
          waitingPlayer := none, pendingPlayers := [] }
        { name := "bot1", role := "???", team := "town", alive := true,
          model := "gpt", has_context := true, has_scratchpad := true }).scratchpadEnabled
      = false
    ∧ buildPlayerCard
        { humanPlayerName := some ("me"), isRevealAll := false, humanAlive := true,
          isGameOver := false, currentPhase := "day", currentStep := none,
          humanTeam := some ("town"), humanRole := some ("Villager"),
          waitingPlayer := none, pendingPlayers := [] }
        { name := "bot1", role := "???", team := "town", alive := true,
          model := "gpt", has_context := false, has_scratchpad := false }
      = buildPlayerCard
        { humanPlayerName := some ("me"), isRevealAll := false, humanAlive := true,
          isGameOver := false, currentPhase := "day", currentStep := none,
          humanTeam := some ("town"), humanRole := some ("Villager"),
          waitingPlayer := none, pendingPlayers := [] }
        { name := "bot1", role := "???", team := "town", alive := true,
          model := "gpt", has_context := true, has_scratchpad := true } :=
  c2_hidden_role_no_leak _ _ _ rfl (by decide) rfl rfl rfl rfl rfl

theorem event_entry_cls_ne (t : String) : ("event-" ++ t) ≠ "private-event" := by
  intro h
  have h2 := congrArg String.data h
  rw [String.data_append] at h2
  simp at h2

/-- C3: the spec-modelled `VisibilityFilter` is a pure function of
(event scope, viewer); scope `all` is visible to every viewer; a
restricted scope is visible exactly to viewers whose team or role equals
the scope or who are the named recipient; and `createEventElement` marks
an event private exactly when its visibility is neither `'all'` nor
`'public'`. -/
theorem c3_visibility_filter (scope : String) (v : Viewer) (e : GameEvent)
    (pm : List (String × PlayerInfo)) :
    (scope = "all" → VisibilityFilter scope v = true)
    ∧ (scope ≠ "all" → scope ≠ "public" →
        (VisibilityFilter scope v = true
          ↔ (v.team = scope ∨ v.role = scope ∨ v.name = scope)))
    ∧ (("private-event" ∈ (createEventElement e pm).classes)
        ↔ (e.visibility ≠ "all" ∧ e.visibility ≠ "public")) := by
  refine ⟨fun h => by simp [VisibilityFilter, h], fun _ _ => ?_, ?_⟩
  · simp [VisibilityFilter]
    tauto
  · have hne := event_entry_cls_ne e.type
    have hne2 : ¬("private-event" = "event-" ++ e.type) := fun h => hne h.symm
    by_cases h1 : e.visibility = "all" <;> by_cases h2 : e.visibility = "public" <;>
      simp [createEventElement, isPrivateVisibility, h1, h2, hne, hne2]

/-- Witness for C3: a mafia-scoped event is visible to a mafia viewer and
rendered as private. -/
theorem c3_witness :
    (VisibilityFilter ("mafia") { name := "Bob", team := "mafia", role := "Mafia" }
        = true)
    ∧ ("private-event" ∈ (createEventElement
        { id := 7, type := "mafia_chat", phase := "night", day := 2,
          player := some ("Bob"), message := "hi", visibility := "mafia",
          turnType := none } []).classes) :=
  ⟨((c3_visibility_filter ("mafia")
        { name := "Bob", team := "mafia", role := "Mafia" }
        { id := 7, type := "mafia_chat", phase := "night", day := 2,
          player := some ("Bob"), message := "hi", visibility := "mafia",
          turnType := none } []).2.1 (by decide) (by decide)).mpr (Or.inl rfl),
   ((c3_visibility_filter ("mafia")
        { name := "Bob", team := "mafia", role := "Mafia" }
        { id := 7, type := "mafia_chat", phase := "night", day := 2,
          player := some ("Bob"), message := "hi", visibility := "mafia",
          turnType := none } []).2.2).mpr ⟨by decide, by decide⟩⟩

theorem updateEventLogWith_count
    (render : GameEvent → List (String × PlayerInfo) → EventDiv)
    (events : List GameEvent) (players : List Player) (s : EventLogState) :
    (updateEventLogWith render events players s).displayedEventCount
      = events.length := by
  unfold updateEventLogWith
  by_cases h : events.isEmpty
  · simp [h, List.isEmpty_iff.mp h]
  · simp [h]

/-- C1: across two successive `updateEventLog` calls in which the new
events list extends the previously rendered one, the entries already in
the container are left unchanged and exactly the events beyond the
previously displayed count are rendered and appended, in list order;
afterwards the displayed count equals the new list's length.  Stated for
`updateEventLogWith`, the common body of both snapshots' `updateEventLog`. -/
theorem c1_event_log_incremental
    (render : GameEvent → List (String × PlayerInfo) → EventDiv)
    (old tail : List GameEvent) (ps1 ps2 : List Player) (s0 : EventLogState) :
    (updateEventLogWith render old ps1 s0).displayedEventCount = old.length
    ∧ (updateEventLogWith render (old ++ tail) ps2
        (updateEventLogWith render old ps1 s0)).entries
      = (updateEventLogWith render old ps1 s0).entries
          ++ tail.map (fun e => render e (buildPlayerMap ps2))
    ∧ (updateEventLogWith render (old ++ tail) ps2
        (updateEventLogWith render old ps1 s0)).displayedEventCount
      = (old ++ tail).length := by
  refine ⟨updateEventLogWith_count .., ?_, updateEventLogWith_count ..⟩
  by_cases ht : (old ++ tail).isEmpty
  · have h0 : old = [] ∧ tail = [] := by simpa using ht
    obtain ⟨h1, h2⟩ := h0
    subst h1; subst h2
    simp [updateEventLogWith]
  · have hcount := updateEventLogWith_count render old ps1 s0
    conv_lhs => rw [updateEventLogWith]
    rw [if_neg (by simp [ht])]
    have hnr : ¬((old ++ tail).length
        < (updateEventLogWith render old ps1 s0).displayedEventCount) := by
      rw [hcount]
      simp
    rw [if_neg hnr]
    simp [hcount, List.drop_left]

theorem bidBeats_irrefl (a : TurnBid) : bidBeats a a = false := by
  simp [bidBeats]

theorem bidBeats_asymm (a b : TurnBid) (h : bidBeats a b = true) :
    bidBeats b a = false := by
  simp only [bidBeats, Bool.or_eq_true, Bool.and_eq_true, decide_eq_true_eq,
    beq_iff_eq, Bool.or_eq_false_iff, Bool.and_eq_false_iff,
    beq_eq_false_iff_ne, ne_eq, decide_eq_false_iff_not, not_lt] at h ⊢
  omega

theorem bidBeats_resolve (x b c : TurnBid) (h1 : bidBeats x b = true)
    (h2 : bidBeats x c = false) (h3 : bidBeats c b = false) : False := by
  simp only [bidBeats, Bool.or_eq_true, Bool.and_eq_true, decide_eq_true_eq,
    beq_iff_eq, Bool.or_eq_false_iff, Bool.and_eq_false_iff,
    beq_eq_false_iff_ne, ne_eq, decide_eq_false_iff_not, not_lt] at h1 h2 h3
  omega

theorem bestBid_none (l : List TurnBid) (h : bestBid l = none) : l = [] := by
  cases l with
  | nil => rfl
  | cons b bs =>
    simp only [bestBid] at h
    cases hb : bestBid bs <;> simp only [hb] at h <;> try simp at h
    split at h <;> simp at h

theorem bestBid_spec (l : List TurnBid) (c : TurnBid) (h : bestBid l = some c) :
    c ∈ l ∧ ∀ b ∈ l, bidBeats b c = false := by
  induction l generalizing c with
  | nil => simp [bestBid] at h
  | cons b bs ih =>
    simp only [bestBid] at h
    cases hb : bestBid bs with
    | none =>
      simp only [hb] at h
      have hbs := bestBid_none bs hb
      subst hbs
      simp only [Option.some.injEq] at h
      subst h
      simp [bidBeats_irrefl]
    | some d =>
      simp only [hb] at h
      obtain ⟨hdmem, hdmax⟩ := ih d hb
      by_cases hd : bidBeats d b
      · rw [if_pos hd] at h
        simp only [Option.some.injEq] at h
        subst h
        exact ⟨List.mem_cons_of_mem _ hdmem, by
          intro x hx
          rcases List.mem_cons.mp hx with hxb | hxbs
          · subst hxb
            exact bidBeats_asymm _ _ hd
          · exact hdmax x hxbs⟩
      · rw [if_neg hd] at h
        simp only [Option.some.injEq] at h
        subst h
        refine ⟨List.mem_cons_self .., ?_⟩
        intro x hx
        rcases List.mem_cons.mp hx with hxb | hxbs
        · subst hxb
          exact bidBeats_irrefl _
        · cases hxc : bidBeats x b with
          | false => rfl
          | true =>
            exact ((bidBeats_resolve x b d hxc (hdmax x hxbs)
              (by simpa using hd))).elim

theorem bestBid_isSome (l : List TurnBid) (h : l ≠ []) :
    ∃ c, bestBid l = some c := by
  cases l with
  | nil => simp at h
  | cons b bs =>
    cases hb : bestBid bs with
    | none => exact ⟨b, by simp [bestBid, hb]⟩
    | some d =>
      by_cases hdb : bidBeats d b
      · exact ⟨d, by simp [bestBid, hb, hdb]⟩
      · exact ⟨b, by simp [bestBid, hb, hdb]⟩

/-- C4: in the spec-modelled TurnScheduler, whenever a scheduled turn is
in progress and some concurrent interrupt bid strictly exceeds its
priority, the next dispatched turn goes to a highest-priority bidder
(ties broken by arrival order) and never to the previously queued
participant, while the in-flight call of the current turn is recorded as
finished rather than cancelled. -/
theorem c4_interrupt_preemption (s : SchedulerState) (b : TurnBid) (r : String)
    (hb : b ∈ s.bids) (hp : s.current.priority < b.priority) :
    (∃ w, w ∈ s.bids ∧ s.current.priority < w.priority
        ∧ selectNextTurn s = { participant := w.participant, priority := w.priority }
        ∧ ∀ b' ∈ s.bids, s.current.priority < b'.priority → bidBeats b' w = false)
    ∧ ((∀ b' ∈ s.bids, s.current.priority < b'.priority →
          b'.participant ≠ s.queuedNext.participant) →
        (selectNextTurn s).participant ≠ s.queuedNext.participant)
    ∧ (completeCurrentTurn s r).finished = s.finished ++ [(s.current.participant, r)]
    ∧ (completeCurrentTurn s r).current = selectNextTurn s := by
  have hne : preemptingBids s ≠ [] := by
    intro h0
    have hmem : b ∈ preemptingBids s := by simp [preemptingBids, hb, hp]
    rw [h0] at hmem
    simp at hmem
  obtain ⟨w, hw⟩ := bestBid_isSome _ hne
  obtain ⟨hwmem, hwmax⟩ := bestBid_spec _ _ hw
  have hwbids : w ∈ s.bids ∧ s.current.priority < w.priority := by
    simpa [preemptingBids] using hwmem
  have hsel : selectNextTurn s
      = { participant := w.participant, priority := w.priority } := by
    simp [selectNextTurn, hw]
  refine ⟨⟨w, hwbids.1, hwbids.2, hsel, ?_⟩, ?_,
    by simp [completeCurrentTurn], by simp [completeCurrentTurn]⟩
  · intro b' hb' hp'
    exact hwmax b' (by simp [preemptingBids, hb', hp'])
  · intro hq
    rw [hsel]
    exact hq w hwbids.1 hwbids.2

/-- Witness for C4 at a concrete scheduler state with one preempting bid. -/
theorem c4_witness :
    (let s : SchedulerState :=
      { current := { participant := "alice", priority := 1 },
        queuedNext := { participant := "bob", priority := 1 },
        bids := [{ participant := "carol", priority := 5, arrival := 0 }],
        finished := [] }
     (∃ w, w ∈ s.bids ∧ s.current.priority < w.priority
        ∧ selectNextTurn s = { participant := w.participant, priority := w.priority }
        ∧ ∀ b' ∈ s.bids, s.current.priority < b'.priority → bidBeats b' w = false)
     ∧ ((∀ b' ∈ s.bids, s.current.priority < b'.priority →
          b'.participant ≠ s.queuedNext.participant) →
        (selectNextTurn s).participant ≠ s.queuedNext.participant)
     ∧ (completeCurrentTurn s ("done")).finished
        = s.finished ++ [(s.current.participant, ("done"))]
     ∧ (completeCurrentTurn s ("done")).current = selectNextTurn s) :=
  c4_interrupt_preemption _ { participant := "carol", priority := 5, arrival := 0 }
    ("done") (by decide) (by decide)

/-! ### Lemmas for C8 (`parseMarkdown` never emits markup beyond strong/em) -/

theorem emPass_nil : emPass [] = [] := by
  simp [emPass]

theorem emPass_cons_ne (c : Char) (cs : List Char) (h : ¬c = '*') :
    emPass (c :: cs) = c :: emPass cs := by
  simp [emPass, h]

theorem emPass_star_some (cs content rest : List Char)
    (h : cs = content ++ '*' :: rest ∧ content ≠ [])
    (hf : findEmContent cs = some ⟨(content, rest), h⟩) :
    emPass ('*' :: cs) = tokEmOpen ++ content ++ tokEmClose ++ emPass rest := by
  simp [emPass, hf]

theorem emPass_star_none (cs : List Char) (hf : findEmContent cs = none) :
    emPass ('*' :: cs) = '*' :: emPass cs := by
  simp [emPass, hf]

theorem strongPass_nil : strongPass [] = [] := by
  simp [strongPass]

theorem strongPass_cons_ne (c : Char) (cs : List Char) (h : ¬c = '*') :
    strongPass (c :: cs) = c :: strongPass cs := by
  rw [strongPass.eq_def]
  simp [h]

theorem strongPass_star_nil : strongPass ['*'] = ['*'] := by
  rw [strongPass.eq_def]
  simp

theorem strongPass_star_cons_ne (c' : Char) (cs' : List Char) (h : ¬c' = '*') :
    strongPass ('*' :: c' :: cs') = '*' :: strongPass (c' :: cs') := by
  rw [strongPass.eq_def]
  simp [h]

theorem strongPass_star_star_some (cs' content rest : List Char)
    (h : cs' = content ++ '*' :: '*' :: rest ∧ content ≠ [])
    (hf : findBoldContent cs' = some ⟨(content, rest), h⟩) :
    strongPass ('*' :: '*' :: cs')
      = tokStrongOpen ++ content ++ tokStrongClose ++ strongPass rest := by
  rw [strongPass.eq_def]
  simp [hf]

theorem strongPass_star_star_none (cs' : List Char)
    (hf : findBoldContent cs' = none) :
    strongPass ('*' :: '*' :: cs') = '*' :: strongPass ('*' :: cs') := by
  rw [strongPass.eq_def]
  simp [hf]

theorem escChar_noAngle (a : Char) : ∀ c ∈ escChar a, c ≠ '<' ∧ c ≠ '>' := by
  intro c hc
  simp only [escChar] at hc
  split_ifs at hc with h1 h2 h3 h4
  · simp at hc; rcases hc with rfl | rfl | rfl | rfl | rfl <;> decide
  · simp at hc; rcases hc with rfl | rfl | rfl | rfl <;> decide
  · simp at hc; rcases hc with rfl | rfl | rfl | rfl <;> decide
  · simp at hc; rcases hc with rfl | rfl | rfl | rfl | rfl | rfl <;> decide
  · simp at hc; subst hc; exact ⟨h2, h3⟩

theorem escapeHtmlL_noAngle (l : List Char) : noAngle (escapeHtmlL l) := by
  intro c hc
  simp only [escapeHtmlL, List.mem_flatten, List.mem_map] at hc
  obtain ⟨ll, ⟨a, _, rfl⟩, hcl⟩ := hc
  exact escChar_noAngle a c hcl

theorem safeS_append (a b : List Char) (ha : SafeS a) (hb : SafeS b) :
    SafeS (a ++ b) := by
  induction ha with
  | nil => simpa
  | plain c rest h1 h2 _ ih => exact SafeS.plain c _ h1 h2 ih
  | so rest _ ih => rw [List.append_assoc]; exact SafeS.so _ ih
  | sc rest _ ih => rw [List.append_assoc]; exact SafeS.sc _ ih

theorem onlyMarkupTags_append (a b : List Char) (ha : OnlyMarkupTags a)
    (hb : OnlyMarkupTags b) : OnlyMarkupTags (a ++ b) := by
  induction ha with
  | nil => simpa
  | plain c rest h1 h2 _ ih => exact OnlyMarkupTags.plain c _ h1 h2 ih
  | so rest _ ih => rw [List.append_assoc]; exact OnlyMarkupTags.so _ ih
  | sc rest _ ih => rw [List.append_assoc]; exact OnlyMarkupTags.sc _ ih
  | eo rest _ ih => rw [List.append_assoc]; exact OnlyMarkupTags.eo _ ih
  | ec rest _ ih => rw [List.append_assoc]; exact OnlyMarkupTags.ec _ ih

theorem noAngle_safeS (l : List Char) (h : noAngle l) : SafeS l := by
  induction l with
  | nil => exact SafeS.nil
  | cons c cs ih =>
    have hc := h c (List.mem_cons_self ..)
    exact SafeS.plain c cs hc.1 hc.2 (ih (fun x hx => h x (List.mem_cons_of_mem _ hx)))

theorem safeS_onlyTags (l : List Char) (h : SafeS l) : OnlyMarkupTags l := by
  induction h with
  | nil => exact .nil
  | plain c rest h1 h2 _ ih => exact .plain c rest h1 h2 ih
  | so rest _ ih => exact .so rest ih
  | sc rest _ ih => exact .sc rest ih

theorem split_token : ∀ (tok : List Char), '*' ∉ tok →
    ∀ a b rest, tok ++ rest = a ++ '*' :: b →
      ∃ a', a = tok ++ a' ∧ rest = a' ++ '*' :: b := by
  intro tok
  induction tok with
  | nil =>
    intro _ a b rest he
    exact ⟨a, by simp, he⟩
  | cons t ts ih =>
    intro htok a b rest he
    have ht : t ≠ '*' := fun h => htok (h ▸ List.mem_cons_self ..)
    cases a with
    | nil =>
      simp at he
      exact absurd he.1 ht
    | cons a0 as =>
      simp at he
      obtain ⟨rfl, he2⟩ := he
      obtain ⟨a', rfl, hrest⟩ :=
        ih (fun h => htok (List.mem_cons_of_mem _ h)) as b rest he2
      exact ⟨a', by simp, hrest⟩

theorem safeS_split_star (l a b : List Char) (h : SafeS l)
    (he : l = a ++ '*' :: b) : SafeS a ∧ SafeS b := by
  induction h generalizing a b with
  | nil => cases a <;> simp at he
  | plain c rest h1 h2 hs ih =>
    cases a with
    | nil =>
      simp at he
      exact ⟨SafeS.nil, he.2 ▸ hs⟩
    | cons a0 as =>
      simp at he
      obtain ⟨rfl, hrest⟩ := he
      obtain ⟨hsa, hsb⟩ := ih as b hrest
      exact ⟨SafeS.plain _ _ h1 h2 hsa, hsb⟩
  | so rest hs ih =>
    obtain ⟨a', rfl, hrest⟩ := split_token tokStrongOpen (by decide) a b rest he
    obtain ⟨hsa, hsb⟩ := ih a' b hrest
    exact ⟨SafeS.so _ hsa, hsb⟩
  | sc rest hs ih =>
    obtain ⟨a', rfl, hrest⟩ := split_token tokStrongClose (by decide) a b rest he
    obtain ⟨hsa, hsb⟩ := ih a' b hrest
    exact ⟨SafeS.sc _ hsa, hsb⟩

theorem strongPass_safeS (l : List Char) (h : noAngle l) :
    SafeS (strongPass l) := by
  generalize hn : l.length = n
  induction n using Nat.strong_induction_on generalizing l with
  | _ n ih =>
    cases l with
    | nil =>
      rw [strongPass_nil]
      exact SafeS.nil
    | cons c cs =>
      by_cases hc : c = '*'
      · subst hc
        cases cs with
        | nil =>
          rw [strongPass_star_nil]
          exact SafeS.plain _ _ (by decide) (by decide) SafeS.nil
        | cons c' cs' =>
          by_cases hc' : c' = '*'
          · subst hc'
            cases hf : findBoldContent cs' with
            | some p =>
              obtain ⟨⟨content, rest⟩, hp⟩ := p
              rw [strongPass_star_star_some cs' content rest hp hf]
              have hsplit := hp.1
              have hnc : noAngle content := fun x hx =>
                h x (by rw [hsplit]; simp [hx])
              have hnr : noAngle rest := fun x hx =>
                h x (by rw [hsplit]; simp [hx])
              have hlen : rest.length < n := by
                rw [← hn, hsplit]
                simp
                omega
              have hsr : SafeS (strongPass rest) := ih rest.length hlen rest hnr rfl
              rw [List.append_assoc, List.append_assoc]
              exact SafeS.so _ (safeS_append _ _ (noAngle_safeS _ hnc) (SafeS.sc _ hsr))
            | none =>
              rw [strongPass_star_star_none cs' hf]
              refine SafeS.plain _ _ (by decide) (by decide) ?_
              refine ih ('*' :: cs').length (by rw [← hn]; simp) ('*' :: cs') ?_ rfl
              exact fun x hx => h x (List.mem_cons_of_mem _ hx)
          · rw [strongPass_star_cons_ne c' cs' hc']
            refine SafeS.plain _ _ (by decide) (by decide) ?_
            refine ih (c' :: cs').length (by rw [← hn]; simp) (c' :: cs') ?_ rfl
            exact fun x hx => h x (List.mem_cons_of_mem _ hx)
      · rw [strongPass_cons_ne c cs hc]
        have hcc := h c (List.mem_cons_self ..)
        refine SafeS.plain _ _ hcc.1 hcc.2 ?_
        refine ih cs.length (by rw [← hn]; simp) cs ?_ rfl
        exact fun x hx => h x (List.mem_cons_of_mem _ hx)

theorem emPass_nonstar_append (t rest : List Char) (ht : '*' ∉ t) :
    emPass (t ++ rest) = t ++ emPass rest := by
  induction t with
  | nil => simp
  | cons c cs ih =>
    have hc : ¬c = '*' := fun h => ht (h ▸ List.mem_cons_self ..)
    rw [List.cons_append, emPass_cons_ne c _ hc,
      ih (fun h => ht (List.mem_cons_of_mem _ h))]
    simp

theorem emPass_onlyTags (l : List Char) (h : SafeS l) :
    OnlyMarkupTags (emPass l) := by
  generalize hn : l.length = n
  induction n using Nat.strong_induction_on generalizing l with
  | _ n ih =>
    cases h with
    | nil =>
      rw [emPass_nil]
      exact .nil
    | plain c rest h1 h2 hs =>
      by_cases hc : c = '*'
      · subst hc
        cases hf : findEmContent rest with
        | some p =>
          obtain ⟨⟨content, r2⟩, hp⟩ := p
          rw [emPass_star_some rest content r2 hp hf]
          have hsplit := hp.1
          obtain ⟨hscontent, hsr2⟩ := safeS_split_star rest content r2 hs hsplit
          have hlen : r2.length < n := by
            rw [← hn, hsplit]
            simp
            omega
          rw [List.append_assoc, List.append_assoc]
          exact .eo _ (onlyMarkupTags_append _ _ (safeS_onlyTags _ hscontent)
            (.ec _ (ih r2.length hlen r2 hsr2 rfl)))
        | none =>
          rw [emPass_star_none rest hf]
          exact .plain _ _ (by decide) (by decide)
            (ih rest.length (by rw [← hn]; simp) rest hs rfl)
      · rw [emPass_cons_ne c rest hc]
        exact .plain _ _ h1 h2 (ih rest.length (by rw [← hn]; simp) rest hs rfl)
    | so rest hs =>
      rw [emPass_nonstar_append tokStrongOpen rest (by decide)]
      refine .so _ (ih rest.length ?_ rest hs rfl)
      rw [← hn]
      simp [tokStrongOpen]
      omega
    | sc rest hs =>
      rw [emPass_nonstar_append tokStrongClose rest (by decide)]
      refine .sc _ (ih rest.length ?_ rest hs rfl)
      rw [← hn]
      simp [tokStrongClose]
      omega

/-- C8: `parseMarkdown` first HTML-escapes its input — after escaping no
raw angle bracket remains — and only then rewrites `**…**` spans and
then `*…*` spans, so its output consists of angle-free text interleaved
with intact `<strong>`, `</strong>`, `<em>`, `</em>` tags: untrusted
message text can never inject any other markup. -/
theorem c8_parseMarkdown_safe (s : String) :
    (parseMarkdown s).data = emPass (strongPass (escapeHtmlL s.data))
    ∧ noAngle (escapeHtmlL s.data)
    ∧ OnlyMarkupTags ((parseMarkdown s).data) :=
  ⟨rfl, escapeHtmlL_noAngle s.data,
    emPass_onlyTags _ (strongPass_safeS (escapeHtmlL s.data)
      (escapeHtmlL_noAngle s.data))⟩

end MafiaAI
